import Mathlib

/-!
Verification of the split-delta portion of the ckeditor5 engine model layer
(`src/packages/ckeditor5-engine/src/dataprocessor/dataprocessor.ts`, which
contains the `SplitDelta` class, the `register('split', ...)` batch method and
the `DeltaFactory.register(SplitDelta)` call).

The collaborator classes (`Position`, `Element`, `Document`, the base `Delta`
class, `Batch.addDelta`, `DeltaFactory`) are not part of the given sources;
they are modelled from the specification (spec.md §3, §4.1, §4.2, §4.3, §4.6)
and each such definition is marked `Modelled from the spec:` in its doc
comment.  The `SplitDelta` getters and the body of the registered `split`
function are translated directly from the source file.
-/

namespace CkSplit

/-- Modelled from the spec: a `Position` is an addressable location in the
document tree, `{ root: RootId, path: sequence of non-negative integers }`
(spec.md §3).  The element containing the position sits at `path.dropLast`
and the position's own offset inside that element is the last path entry. -/
structure Position where
  root : String
  path : List Nat
  deriving Repr, DecidableEq

/-- Modelled from the spec: `position.offset` is the last entry of the path. -/
def Position.offset (p : Position) : Nat :=
  p.path.getLastD 0

/-- Modelled from the spec: the slice of an `Element` that the split action
reads — its `name`, its `attributes`, its `maxOffset` (total child-occupied
width, spec.md §3), and its location in the tree (`root` plus `path`).  The
element has a parent back-reference exactly when its path is non-empty; root
elements have the empty path and a `null` parent. -/
structure ElementView where
  name : String
  attrs : List (String × String)
  maxOffset : Nat
  root : String
  path : List Nat
  deriving Repr, DecidableEq

/-- Whether the element has a parent (`element.parent` is non-null in the
source); root elements — and only they — have no parent. -/
def ElementView.hasParent (e : ElementView) : Bool :=
  !e.path.isEmpty

/-- Modelled from the spec (§4.1): `Position.createAfter(element)` is the
position immediately after the element inside its parent: the element's own
path with the last offset incremented.  Only called on elements that have a
parent (non-empty path). -/
def Position.createAfter (e : ElementView) : Position :=
  { root := e.root, path := e.path.dropLast ++ [e.path.getLastD 0 + 1] }

/-- Modelled from the spec (§4.1): `Position.createFromParentAndOffset(parent,
offset)` for a parent element located at position `loc`: the parent's path
extended by the offset. -/
def Position.createFromParentAndOffset (loc : Position) (offset : Nat) : Position :=
  { root := loc.root, path := loc.path ++ [offset] }

/-- Model document node: an element (named, attributed, with children) or a
text run (spec.md §3). -/
inductive Node where
  | element (name : String) (attrs : List (String × String)) (children : List Node)
  | text (data : String)
  deriving Repr

/-- Modelled from the spec: a node's offset width — elements occupy one child
slot, text runs occupy one slot per character (spec.md §3). -/
def Node.width : Node → Nat
  | .element _ _ _ => 1
  | .text s => s.length

/-- The payload of an operation: the variants used by the split delta
(spec.md §3).  `move` carries `sourcePosition`, `howMany` and
`targetPosition`; `howMany` is an integer because the source computes it by
plain subtraction. -/
inductive OpData where
  | insert (position : Position) (node : Node)
  | move (sourcePosition : Position) (howMany : Int) (targetPosition : Position)
  deriving Repr

/-- An operation: its payload, the `baseVersion` it was authored against, and
the `isSticky` flag (the one mutable field, spec.md §3). -/
structure Operation where
  data : OpData
  baseVersion : Nat
  isSticky : Bool
  deriving Repr

/-- The `sourcePosition` property read off an operation object; reading it on
a non-move operation yields `undefined` in the source, modelled as `none`. -/
def Operation.sourcePos (op : Operation) : Option Position :=
  match op.data with
  | .move s _ _ => some s
  | _ => none

/-- The designated detached holding root ("graveyard") that removal moves
content into (spec.md §3: removal is a move to a detached holding root). -/
def graveyardPosition : Position :=
  { root := "$graveyard", path := [0] }

/-- Modelled from the spec (§4.2): `operation.getReversed()` returns the
semantically inverse operation stamped with `baseVersion + 1`; a move's
reverse swaps source and target, an insert's reverse removes the inserted
content (a move into the detached holding root). -/
def Operation.getReversed (op : Operation) : Operation :=
  { data :=
      match op.data with
      | .insert p n => .move p (Node.width n) graveyardPosition
      | .move s h t => .move t h s,
    baseVersion := op.baseVersion + 1,
    isSticky := op.isSticky }

/-- The delta kinds appearing in the sources: the split delta and the merge
delta it reverses into. -/
inductive DeltaClass where
  | base
  | split
  | merge
  deriving Repr, DecidableEq

/-- A delta: its concrete kind and its ordered operation list (spec.md §3). -/
structure Delta where
  cls : DeltaClass
  operations : List Operation
  deriving Repr

/-- From the source: `new SplitDelta()` — a split delta starts with no
operations. -/
def SplitDelta.new : Delta :=
  { cls := .split, operations := [] }

/-- From the source: `static get className() { return
'engine.model.delta.SplitDelta'; }`. -/
def SplitDelta.className : String :=
  "engine.model.delta.SplitDelta"

/-- From the source: `static get _priority() { return 5; }`. -/
def SplitDelta.priority : Nat :=
  5

/-- From the source: `get _reverseDeltaClass() { return MergeDelta; }`. -/
def SplitDelta.reverseDeltaClass : DeltaClass :=
  .merge

/-- From the source: `get _cloneOperation() { return this.operations[ 0 ] ||
null; }`. -/
def SplitDelta.cloneOperation (d : Delta) : Option Operation :=
  d.operations[0]?

/-- From the source: `get _moveOperation() { return this.operations[ 1 ] ||
null; }`. -/
def SplitDelta.moveOperation (d : Delta) : Option Operation :=
  d.operations[1]?

/-- From the source: `get position() { return this._moveOperation ?
this._moveOperation.sourcePosition : null; }`.  When `operations[1]` exists
its `sourcePosition` property is read (yielding `undefined`, i.e. `none`, on
a non-move operation); otherwise the getter returns `null`. -/
def SplitDelta.position (d : Delta) : Option Position :=
  match SplitDelta.moveOperation d with
  | some op => op.sourcePos
  | none => none

/-- Modelled from the spec (§4.3): the base `Delta.getReversed()` reverses the
operations in reverse order, each reversed individually, and re-wraps them in
the delta's `_reverseDeltaClass`. -/
def Delta.getReversedBase (reverseCls : DeltaClass) (d : Delta) : Delta :=
  { cls := reverseCls,
    operations := (d.operations.map Operation.getReversed).reverse }

/-- From the source: `SplitDelta.getReversed()` takes the base reversal and,
when the reversed delta has at least one operation, sets
`operations[0].isSticky = true`. -/
def SplitDelta.getReversed (d : Delta) : Delta :=
  let delta := Delta.getReversedBase SplitDelta.reverseDeltaClass d
  if delta.operations.length > 0 then
    { delta with
      operations :=
        match delta.operations with
        | [] => []
        | o :: rest => { o with isSticky := true } :: rest }
  else
    delta

/-- Modelled from the spec: the `Document` owns the version counter and the
applied-operation history (spec.md §3); the tree itself is not needed by the
claims about the split action. -/
structure Document where
  version : Nat
  history : List Operation
  deriving Repr

/-- Modelled from the spec (§4.2): `document.applyOperation(op)` asserts
`baseVersion === document.version` (failing with a version mismatch
otherwise), appends the operation to history and increments the version by
exactly one. -/
def Document.applyOperation (doc : Document) (op : Operation) : Option Document :=
  if op.baseVersion = doc.version then
    some { version := doc.version + 1, history := doc.history ++ [op] }
  else
    none

/-- Modelled from the spec: a `Batch` is an ordered group of deltas; the `id`
stands for the object identity of the chainable handle (spec.md §3, §6). -/
structure Batch where
  id : Nat
  deltas : List Delta
  deriving Repr

/-- Modelled from the spec: `batch.addDelta(delta)` appends the delta to the
batch's delta list. -/
def Batch.addDelta (b : Batch) (d : Delta) : Batch :=
  { b with deltas := b.deltas ++ [d] }

/-- The outcome of one `batch.split(position)` call: the batch object after
the call (in the source the batch is mutated in place, so it is observable
even when an error is thrown), the document after the call, and the name of
the thrown `CKEditorError` when one was thrown (`none` on success). -/
structure SplitOutcome where
  batch : Batch
  doc : Document
  err : Option String
  deriving Repr

/-- Translation of `register( 'split', function( position ) {...} )` from the
source.  `splitElement` is the resolved `position.parent` element (position
resolution lives in the missing `Position` class; the caller hands the
resolved parent in, with the consistency hypotheses stated at the theorems).
Step by step, following the source:
  * a fresh `SplitDelta` is created and `addDelta` runs immediately;
  * if the split element has no parent (it is a root), the
    `batch-split-root` `CKEditorError` is thrown — the empty delta stays in
    the batch and the document is untouched;
  * otherwise an empty copy element with the split element's name and
    attributes is built, an `InsertOperation` at
    `Position.createAfter(splitElement)` with `baseVersion =
    document.version` is added to the delta and applied;
  * then a `MoveOperation` from `position`, moving
    `splitElement.maxOffset - position.offset` slots into offset 0 of the
    copy, with `baseVersion = document.version` (after the insert) and
    `isSticky = true`, is added to the delta and applied;
  * the batch itself is returned.
The aliasing of the delta object (mutated after `addDelta`) is reflected by
placing the delta's final operation list into the batch. -/
def Batch.split (b : Batch) (doc : Document) (position : Position)
    (splitElement : ElementView) : SplitOutcome :=
  if !splitElement.hasParent then
    { batch := b.addDelta SplitDelta.new, doc := doc, err := some "batch-split-root" }
  else
    let copy : Node := .element splitElement.name splitElement.attrs []
    let insert : Operation :=
      { data := .insert (Position.createAfter splitElement) copy,
        baseVersion := doc.version, isSticky := false }
    match doc.applyOperation insert with
    | none =>
        { batch := b.addDelta { cls := .split, operations := [insert] },
          doc := doc, err := some "document-applyOperation-wrong-version" }
    | some doc1 =>
        let move : Operation :=
          { data := .move position
              ((splitElement.maxOffset : Int) - (position.offset : Int))
              (Position.createFromParentAndOffset (Position.createAfter splitElement) 0),
            baseVersion := doc1.version, isSticky := true }
        match doc1.applyOperation move with
        | none =>
            { batch := b.addDelta { cls := .split, operations := [insert, move] },
              doc := doc1, err := some "document-applyOperation-wrong-version" }
        | some doc2 =>
            { batch := b.addDelta { cls := .split, operations := [insert, move] },
              doc := doc2, err := none }

/-- Modelled from the spec (§4.6): the `DeltaFactory` registry associates a
delta kind's stable `className` tag with the kind. -/
def DeltaFactory.register (cls : DeltaClass) (className : String)
    (reg : List (String × DeltaClass)) : List (String × DeltaClass) :=
  (className, cls) :: reg

/-- The registry after the module-level `DeltaFactory.register( SplitDelta )`
call in the source runs on an empty registry. -/
def deltaFactoryRegistry : List (String × DeltaClass) :=
  DeltaFactory.register .split SplitDelta.className []

/-- The insert operation the split action constructs on the success path: it
inserts an empty copy element (same name and attributes as the split element,
no children) at the position immediately after the split element, authored
against the document version at the start of the action. -/
def splitInsertOp (doc : Document) (e : ElementView) : Operation :=
  { data := .insert (Position.createAfter e) (.element e.name e.attrs []),
    baseVersion := doc.version, isSticky := false }

/-- The move operation the split action constructs on the success path: it
moves `maxOffset - position.offset` child slots from the split position into
offset 0 of the freshly inserted copy, is flagged sticky, and is authored
against the document version after the insert was applied. -/
def splitMoveOp (doc : Document) (pos : Position) (e : ElementView) : Operation :=
  { data := .move pos ((e.maxOffset : Int) - (pos.offset : Int))
      (Position.createFromParentAndOffset (Position.createAfter e) 0),
    baseVersion := doc.version + 1, isSticky := true }

/-- Concrete example data used by the witnesses: a `<p bold>` element of
width 4 sitting at path `[2]` of the main root, split in the middle. -/
def egElem : ElementView :=
  { name := "p", attrs := [("bold", "true")], maxOffset := 4,
    root := "main", path := [2] }

/-- Concrete split position: offset 2 inside `egElem`. -/
def egPos : Position :=
  { root := "main", path := [2, 2] }

/-- Concrete root element (no parent: empty path). -/
def egRootElem : ElementView :=
  { name := "$root", attrs := [], maxOffset := 4, root := "main", path := [] }

/-- Concrete position inside the root element. -/
def egRootPos : Position :=
  { root := "main", path := [2] }

/-- Concrete batch handle. -/
def egBatch : Batch :=
  { id := 7, deltas := [] }

/-- Concrete document at version 3 with empty history. -/
def egDoc : Document :=
  { version := 3, history := [] }

/-- Concrete non-move operation for the example deltas. -/
def egOp : Operation :=
  { data := .insert egPos (Node.text "x"), baseVersion := 0, isSticky := false }

/-- Concrete move operation for the example deltas. -/
def egMoveOp : Operation :=
  { data := .move egPos 2
      (Position.createFromParentAndOffset (Position.createAfter egElem) 0),
    baseVersion := 4, isSticky := true }

/-- Concrete one-operation split delta. -/
def egDelta1 : Delta :=
  { cls := .split, operations := [egOp] }

/-- Concrete two-operation split delta whose second operation is a move. -/
def egDelta2 : Delta :=
  { cls := .split, operations := [egOp, egMoveOp] }

/-- Helper: on a split element that has a parent, the split action reaches the
success path and its whole outcome is determined — the batch gains exactly the
one split delta holding the insert and the sticky move, the document version
advances by two, history gains the two operations in order, and no error is
thrown. -/
theorem Batch.split_success (b : Batch) (doc : Document) (pos : Position)
    (e : ElementView) (h : e.hasParent = true) :
    Batch.split b doc pos e =
      { batch :=
          { id := b.id,
            deltas := b.deltas ++
              [{ cls := .split,
                 operations := [splitInsertOp doc e, splitMoveOp doc pos e] }] },
        doc :=
          { version := doc.version + 2,
            history := doc.history ++ [splitInsertOp doc e, splitMoveOp doc pos e] },
        err := none } := by
  simp [Batch.split, h, Document.applyOperation, Batch.addDelta,
    splitInsertOp, splitMoveOp]

/-- C1: for every valid (non-root-parented) split position, the split action
constructs exactly two operations inside one split delta: first an insert
operation inserting a new empty element with the same name and attributes as
the split position's parent element, at the position immediately after that
element; then a move operation; no other operation is added to the delta. -/
theorem split_constructs_insert_then_move (b : Batch) (doc : Document)
    (pos : Position) (e : ElementView) (h : e.hasParent = true) :
    ∃ mv : Operation,
      (Batch.split b doc pos e).batch.deltas =
        b.deltas ++
          [{ cls := .split,
             operations :=
               [{ data := OpData.insert (Position.createAfter e)
                    (Node.element e.name e.attrs []),
                  baseVersion := doc.version, isSticky := false },
                mv] }] ∧
      (∃ s hm t, mv.data = OpData.move s hm t) := by
  refine ⟨splitMoveOp doc pos e, ?_, ?_⟩
  · rw [Batch.split_success b doc pos e h]
    rfl
  · exact ⟨pos, (e.maxOffset : Int) - (pos.offset : Int),
      Position.createFromParentAndOffset (Position.createAfter e) 0, rfl⟩

/-- Witness for C1 at the concrete example split. -/
theorem split_constructs_insert_then_move_witness :
    egElem.hasParent = true ∧
    (∃ mv : Operation,
      (Batch.split egBatch egDoc egPos egElem).batch.deltas =
        egBatch.deltas ++
          [{ cls := .split,
             operations :=
               [{ data := OpData.insert (Position.createAfter egElem)
                    (Node.element egElem.name egElem.attrs []),
                  baseVersion := egDoc.version, isSticky := false },
                mv] }] ∧
      (∃ s hm t, mv.data = OpData.move s hm t)) :=
  ⟨by decide, split_constructs_insert_then_move egBatch egDoc egPos egElem (by decide)⟩

/-- C2: for every position whose parent element is a root (has no parent),
the split action fails with the `batch-split-root` error and the document is
left unmodified: no operation is applied, version and history are unchanged. -/
theorem split_root_rejected (b : Batch) (doc : Document) (pos : Position)
    (e : ElementView) (h : e.hasParent = false) :
    (Batch.split b doc pos e).err = some "batch-split-root" ∧
    (Batch.split b doc pos e).doc = doc := by
  simp [Batch.split, h, Batch.addDelta]

/-- Witness for C2 at the concrete root element. -/
theorem split_root_rejected_witness :
    egRootElem.hasParent = false ∧
    ((Batch.split egBatch egDoc egRootPos egRootElem).err = some "batch-split-root" ∧
     (Batch.split egBatch egDoc egRootPos egRootElem).doc = egDoc) :=
  ⟨by decide, split_root_rejected egBatch egDoc egRootPos egRootElem (by decide)⟩

/-- C3: for every valid split, the move operation of the split delta moves
exactly `maxOffset - position.offset` child slots, with source position equal
to the split position and target position at offset 0 of the newly inserted
copy, carries `isSticky = true`, and it is this sticky operation that gets
applied to the document (it is the last history entry). -/
theorem split_move_semantics (b : Batch) (doc : Document) (pos : Position)
    (e : ElementView) (h : e.hasParent = true) :
    ∃ ins : Operation,
      (Batch.split b doc pos e).batch.deltas =
        b.deltas ++ [{ cls := .split, operations := [ins, splitMoveOp doc pos e] }] ∧
      (splitMoveOp doc pos e).data =
        OpData.move pos ((e.maxOffset : Int) - (pos.offset : Int))
          (Position.createFromParentAndOffset (Position.createAfter e) 0) ∧
      (splitMoveOp doc pos e).isSticky = true ∧
      (Batch.split b doc pos e).doc.history =
        doc.history ++ [ins, splitMoveOp doc pos e] := by
  refine ⟨splitInsertOp doc e, ?_, rfl, rfl, ?_⟩
  · rw [Batch.split_success b doc pos e h]
  · rw [Batch.split_success b doc pos e h]

/-- Witness for C3 at the concrete example split. -/
theorem split_move_semantics_witness :
    egElem.hasParent = true ∧
    (∃ ins : Operation,
      (Batch.split egBatch egDoc egPos egElem).batch.deltas =
        egBatch.deltas ++
          [{ cls := .split, operations := [ins, splitMoveOp egDoc egPos egElem] }] ∧
      (splitMoveOp egDoc egPos egElem).data =
        OpData.move egPos ((egElem.maxOffset : Int) - (egPos.offset : Int))
          (Position.createFromParentAndOffset (Position.createAfter egElem) 0) ∧
      (splitMoveOp egDoc egPos egElem).isSticky = true ∧
      (Batch.split egBatch egDoc egPos egElem).doc.history =
        egDoc.history ++ [ins, splitMoveOp egDoc egPos egElem]) :=
  ⟨by decide, split_move_semantics egBatch egDoc egPos egElem (by decide)⟩

/-- C4: for every successful split the two operations share one version
lineage: the insert operation's `baseVersion` is the document version at the
start of the action and the move operation's `baseVersion` is the insert's
`baseVersion` plus one (the modelled `applyOperation` increments the version
by exactly one per applied operation, as the spec prescribes). -/
theorem split_version_lineage (b : Batch) (doc : Document) (pos : Position)
    (e : ElementView) (h : e.hasParent = true) :
    ∃ ins mv : Operation,
      (Batch.split b doc pos e).batch.deltas =
        b.deltas ++ [{ cls := .split, operations := [ins, mv] }] ∧
      ins.baseVersion = doc.version ∧
      mv.baseVersion = ins.baseVersion + 1 := by
  refine ⟨splitInsertOp doc e, splitMoveOp doc pos e, ?_, rfl, rfl⟩
  rw [Batch.split_success b doc pos e h]

/-- Witness for C4 at the concrete example split. -/
theorem split_version_lineage_witness :
    egElem.hasParent = true ∧
    (∃ ins mv : Operation,
      (Batch.split egBatch egDoc egPos egElem).batch.deltas =
        egBatch.deltas ++ [{ cls := .split, operations := [ins, mv] }] ∧
      ins.baseVersion = egDoc.version ∧
      mv.baseVersion = ins.baseVersion + 1) :=
  ⟨by decide, split_version_lineage egBatch egDoc egPos egElem (by decide)⟩

/-- C5: for every split delta with at least one operation, `getReversed()`
returns exactly the delta produced by the base reversal (operations reversed
in reverse order, wrapped in the `_reverseDeltaClass`) with its first
operation's `isSticky` flag set to true. -/
theorem splitDelta_getReversed_sticky (d : Delta) (h : d.operations ≠ []) :
    ∃ o rest,
      (Delta.getReversedBase SplitDelta.reverseDeltaClass d).operations = o :: rest ∧
      SplitDelta.getReversed d =
        { cls := SplitDelta.reverseDeltaClass,
          operations := { o with isSticky := true } :: rest } := by
  obtain ⟨o, rest, hor⟩ :
      ∃ o rest, (d.operations.map Operation.getReversed).reverse = o :: rest := by
    cases hh : (d.operations.map Operation.getReversed).reverse with
    | nil =>
        exfalso
        apply h
        simpa using hh
    | cons o rest => exact ⟨o, rest, rfl⟩
  refine ⟨o, rest, ?_, ?_⟩
  · simpa [Delta.getReversedBase] using hor
  · simp [SplitDelta.getReversed, Delta.getReversedBase, hor]

/-- Witness for C5 at a concrete one-operation split delta. -/
theorem splitDelta_getReversed_sticky_witness :
    egDelta1.operations ≠ [] ∧
    (∃ o rest,
      (Delta.getReversedBase SplitDelta.reverseDeltaClass egDelta1).operations =
        o :: rest ∧
      SplitDelta.getReversed egDelta1 =
        { cls := SplitDelta.reverseDeltaClass,
          operations := { o with isSticky := true } :: rest }) :=
  ⟨by simp [egDelta1], splitDelta_getReversed_sticky egDelta1 (by simp [egDelta1])⟩

/-- C6: the split delta kind declares its three pieces of metadata — the
serialization tag `className` equal to `engine.model.delta.SplitDelta`, a
`_priority` of 5, and `MergeDelta` as its `_reverseDeltaClass` — and it is
registered in the delta factory under its `className`. -/
theorem splitDelta_kind_metadata :
    SplitDelta.className = "engine.model.delta.SplitDelta" ∧
    SplitDelta.priority = 5 ∧
    SplitDelta.reverseDeltaClass = DeltaClass.merge ∧
    deltaFactoryRegistry.lookup SplitDelta.className = some DeltaClass.split :=
  ⟨rfl, rfl, rfl, rfl⟩

/-- C7: a split delta's `position` is derived from its operations: it is the
`sourcePosition` of the second operation when that operation exists (in
particular `some s` when the second operation is a move with source `s`), and
it is `null` when the delta has fewer than two operations. -/
theorem splitDelta_position_derived (d : Delta) :
    (∀ op, SplitDelta.moveOperation d = some op →
      SplitDelta.position d = op.sourcePos) ∧
    (∀ op s hm t, SplitDelta.moveOperation d = some op →
      op.data = OpData.move s hm t → SplitDelta.position d = some s) ∧
    (d.operations.length < 2 → SplitDelta.position d = none) := by
  refine ⟨?_, ?_, ?_⟩
  · intro op hop
    simp [SplitDelta.position, hop]
  · intro op s hm t hop hdata
    simp [SplitDelta.position, hop, Operation.sourcePos, hdata]
  · intro hlen
    have hnone : SplitDelta.moveOperation d = none := by
      simp [SplitDelta.moveOperation]
      omega
    simp [SplitDelta.position, hnone]

/-- Witness for C7: the two-operation example delta yields the move's source
position; the empty split delta yields `none`. -/
theorem splitDelta_position_derived_witness :
    SplitDelta.position egDelta2 = some egPos ∧
    SplitDelta.position SplitDelta.new = none :=
  ⟨(splitDelta_position_derived egDelta2).2.1 egMoveOp egPos 2
      (Position.createFromParentAndOffset (Position.createAfter egElem) 0) rfl rfl,
   (splitDelta_position_derived SplitDelta.new).2.2 (by decide)⟩

/-- C8: on every successful invocation the chainable split method adds
exactly one delta (a split delta) to the batch, applies exactly that delta's
operations to the document, throws no error, and returns the same batch
handle it was invoked on. -/
theorem split_chainable_one_delta (b : Batch) (doc : Document) (pos : Position)
    (e : ElementView) (h : e.hasParent = true) :
    (Batch.split b doc pos e).batch.id = b.id ∧
    (Batch.split b doc pos e).err = none ∧
    ∃ d : Delta,
      (Batch.split b doc pos e).batch.deltas = b.deltas ++ [d] ∧
      d.cls = DeltaClass.split ∧
      (Batch.split b doc pos e).doc.history = doc.history ++ d.operations := by
  rw [Batch.split_success b doc pos e h]
  exact ⟨rfl, rfl, _, rfl, rfl, rfl⟩

/-- Witness for C8 at the concrete example split. -/
theorem split_chainable_one_delta_witness :
    egElem.hasParent = true ∧
    ((Batch.split egBatch egDoc egPos egElem).batch.id = egBatch.id ∧
     (Batch.split egBatch egDoc egPos egElem).err = none ∧
     ∃ d : Delta,
       (Batch.split egBatch egDoc egPos egElem).batch.deltas = egBatch.deltas ++ [d] ∧
       d.cls = DeltaClass.split ∧
       (Batch.split egBatch egDoc egPos egElem).doc.history =
         egDoc.history ++ d.operations) :=
  ⟨by decide, split_chainable_one_delta egBatch egDoc egPos egElem (by decide)⟩

/-- C9: calling `getReversed()` on a split delta with no operations does not
fail and sets no sticky flag: the guard on the reversed delta's operation
count leaves the (empty) base reversal unchanged. -/
theorem splitDelta_getReversed_empty (d : Delta) (h : d.operations = []) :
    SplitDelta.getReversed d = Delta.getReversedBase SplitDelta.reverseDeltaClass d ∧
    (SplitDelta.getReversed d).operations = [] := by
  simp [SplitDelta.getReversed, Delta.getReversedBase, h]

/-- Witness for C9 at the fresh, empty split delta. -/
theorem splitDelta_getReversed_empty_witness :
    SplitDelta.new.operations = [] ∧
    (SplitDelta.getReversed SplitDelta.new =
       Delta.getReversedBase SplitDelta.reverseDeltaClass SplitDelta.new ∧
     (SplitDelta.getReversed SplitDelta.new).operations = []) :=
  ⟨rfl, splitDelta_getReversed_empty SplitDelta.new rfl⟩

/-- C10: when split fails on a root element the batch is nevertheless
mutated — the new empty split delta was already appended (`addDelta` runs
before the root-parent check) — while the document keeps its prior state. -/
theorem split_root_still_adds_delta (b : Batch) (doc : Document)
    (pos : Position) (e : ElementView) (h : e.hasParent = false) :
    (Batch.split b doc pos e).batch.deltas =
      b.deltas ++ [{ cls := DeltaClass.split, operations := [] }] ∧
    (Batch.split b doc pos e).err = some "batch-split-root" ∧
    (Batch.split b doc pos e).doc = doc := by
  simp [Batch.split, h, Batch.addDelta, SplitDelta.new]

/-- Witness for C10 at the concrete root element. -/
theorem split_root_still_adds_delta_witness :
    egRootElem.hasParent = false ∧
    ((Batch.split egBatch egDoc egRootPos egRootElem).batch.deltas =
       egBatch.deltas ++ [{ cls := DeltaClass.split, operations := [] }] ∧
     (Batch.split egBatch egDoc egRootPos egRootElem).err = some "batch-split-root" ∧
     (Batch.split egBatch egDoc egRootPos egRootElem).doc = egDoc) :=
  ⟨by decide, split_root_still_adds_delta egBatch egDoc egRootPos egRootElem (by decide)⟩

end CkSplit
